import Mathlib

/-!
A shallow embedding, in Lean 4, of the tool-selection and iterative-orchestration
engine of the `weekly_summeries` repository, together with theorems checking the
natural-language specification of that engine against the code.

The embedding follows the Python source closely:
* `src/tools/base_tool.py` — capability model, `ToolResult`, `ToolAction`,
  the default confidence scorer `BaseTool.should_use`;
* `src/tools/database/mcp_database_tool.py` — `MCPDatabaseTool.should_use`;
* `src/tools/registry.py` — `ToolRegistry.get_tools_for_intent`;
* `src/agent/context_manager.py` — `build_context`, `_extract_entities`,
  `_parse_date`, `update_context`, `_extract_preferences`;
* `src/agent/intelligent_agent.py` — `process_request`, `_execute_tools`,
  `_has_sufficient_information`, `_is_conversational_request`.

Modelling conventions:
* Python `float` scores are modelled as `ℚ` (the scores are built from small
  decimal literals and divisions; rational arithmetic is the intended algebra).
* Python dictionaries used as request contexts are modelled as association
  lists `List (String × Val)` where a later `dict[k] = v` assignment prepends
  the binding, so the first binding found by lookup is the current one.
* Calls to external collaborators (the OpenAI backend, the process clock, the
  `dateutil` parser, concrete tool I/O) are parameters of the embedded
  functions; theorems quantify over every behaviour of those parameters.
* A Python exception raised by tool validation/execution is modelled as the
  `Except.error` branch carrying the exception text `str(e)`; the text may be
  the empty string (`str(ValueError())` is `""`).
-/

namespace WeeklySummaries

/-! ## Dynamic values (Python objects stored in context dictionaries) -/

/-- A Python value as stored in a context dictionary. -/
inductive Val where
  | vNone : Val
  | vBool : Bool → Val
  | vNat : Nat → Val
  | vStr : String → Val
  | vList : List Val → Val
  | vDict : List (String × Val) → Val

/-- Python truthiness of a `Val` (`bool(v)`). -/
def Val.truthy : Val → Bool
  | .vNone => false
  | .vBool b => b
  | .vNat n => n ≠ 0
  | .vStr s => s ≠ ""
  | .vList l => !l.isEmpty
  | .vDict d => !d.isEmpty

/-- `None`-to-value coercion used when a possibly-absent payload is stored. -/
def Val.ofOpt : Option Val → Val
  | some v => v
  | none => .vNone

/-- A request context: a Python dict, most recent binding first. -/
abbrev Ctx := List (String × Val)

/-- `dict[k] = v`: the new binding shadows any older one. -/
def ctxInsert (ctx : Ctx) (k : String) (v : Val) : Ctx := (k, v) :: ctx

/-- `dict.get(k)`: first (most recent) binding wins. -/
def ctxLookup (ctx : Ctx) (k : String) : Option Val :=
  (ctx.find? (fun p => p.1 = k)).map Prod.snd

/-- Python `k in dict`. -/
def ctxHasKey (ctx : Ctx) (k : String) : Bool := (ctxLookup ctx k).isSome

/-- Python `bool(dict.get(k))`: the key is present and its value is truthy. -/
def ctxTruthy (ctx : Ctx) (k : String) : Bool :=
  match ctxLookup ctx k with
  | some v => v.truthy
  | none => false

/-- `dict.get(k, default)` restricted to string values (keys such as
`session_id` are strings in every reachable state of the program). -/
def ctxGetStr (ctx : Ctx) (k : String) (dflt : String) : String :=
  match ctxLookup ctx k with
  | some (.vStr s) => s
  | _ => dflt

/-! ## Strings: `str.lower()` and the substring test `a in b` -/

/-- Python `s.lower()`. -/
def lowerStr (s : String) : String := ⟨s.data.map Char.toLower⟩

/-- Python `s.upper()`. -/
def upperStr (s : String) : String := ⟨s.data.map Char.toUpper⟩

/-- Python `s.strip()`: drop leading and trailing whitespace. -/
def pyStrip (s : String) : String :=
  ⟨((s.data.dropWhile Char.isWhitespace).reverse.dropWhile Char.isWhitespace).reverse⟩

/-- Python `s.startswith(p)`. -/
def startsWithStr (p s : String) : Bool := decide (p.toList <+: s.toList)

/-- Python substring test `needle in haystack`. -/
def substrOf (needle haystack : String) : Bool :=
  decide (needle.toList <:+: haystack.toList)

/-! ## Capability model (`src/tools/base_tool.py`) -/

/-- `ToolCapability` — the applicability metadata a tool declares.
`description`, `parameters` and `data_sources` play no role in scoring and are
kept as opaque payloads. -/
structure ToolCapability where
  name : String
  description : String
  parameters : Val
  use_cases : List String
  data_sources : List String
  prerequisites : List String
  confidence_keywords : List String

/-- `ToolResultStatus` (the `"partial"` member is named `statusPartial` in the
embedding; its serialized form below is the string of the source). -/
inductive ToolResultStatus where
  | success
  | error
  | statusPartial
  | skipped
  deriving Repr, DecidableEq

/-- `status.value` — the serialized status string. -/
def ToolResultStatus.value : ToolResultStatus → String
  | .success => "success"
  | .error => "error"
  | .statusPartial => "partial"
  | .skipped => "skipped"

/-- `ToolResult` (the generated `result_id`, `metadata` and `execution_time`
play no role in any checked property and are omitted). -/
structure ToolResult where
  tool_name : String
  status : ToolResultStatus
  data : Option Val := none
  error : Option String := none

/-- `ToolAction` (the generated `action_id` and the unused `depends_on` are
omitted; `priority` is a Python int, lower means executed first). -/
structure ToolAction where
  tool_name : String
  parameters : Val
  priority : Int := 1

/-! ## Default confidence scorer: `BaseTool.should_use` -/

/-- `BaseTool.should_use` (`src/tools/base_tool.py`, lines 96–139).
`enabled` is the instance attribute set from the tool config. -/
def baseShouldUse (enabled : Bool) (caps : ToolCapability)
    (intent : String) (context : Ctx) : ℚ :=
  if !enabled then 0
  else
    let intentLower := lowerStr intent
    let useCaseMatches :=
      (caps.use_cases.filter (fun u => substrOf (lowerStr u) intentLower)).length
    let keywordMatches :=
      (caps.confidence_keywords.filter (fun k => substrOf (lowerStr k) intentLower)).length
    let prereqPenalty : ℚ :=
      (caps.prerequisites.filter (fun p => !ctxHasKey context p)).length * (2/10)
    let totalKeywords := caps.use_cases.length + caps.confidence_keywords.length
    let baseScore : ℚ :=
      if totalKeywords = 0 then 1/10
      else ((useCaseMatches : ℚ) + (keywordMatches : ℚ)) / (totalKeywords : ℚ)
    let finalScore := max 0 (baseScore - prereqPenalty)
    min 1 finalScore

/-! ## `MCPDatabaseTool` (`src/tools/database/mcp_database_tool.py`) -/

/-- The `capabilities` property of `MCPDatabaseTool` (lines 75–108); the SQL
text of the predefined queries is irrelevant to scoring and elided. -/
def mcpCapabilities : ToolCapability :=
  { name := "database_query"
    description := "Retrieve user data from database using predefined queries"
    parameters := .vDict []
    use_cases := ["user_activity", "historical_data", "preferences", "weekly_summary",
                  "user_metrics", "activity_logs", "user_behavior"]
    data_sources := ["postgresql", "mysql", "database"]
    prerequisites := ["database_connection"]
    confidence_keywords := ["user", "activity", "data", "history", "database", "query",
                            "metrics", "preferences", "summary", "trends"] }

/-- The hard-coded keyword list inside `MCPDatabaseTool.should_use`. -/
def mcpDataKeywords : List String :=
  ["data", "activity", "history", "user", "database", "query"]

/-- `MCPDatabaseTool.should_use` (lines 272–288): calls the base scorer, then
adds a +0.3 boost when `user_id` and `date` are truthy in context and a
keyword boost of `(matches / 6) * 0.2`, re-clamped to at most 1. -/
def mcpShouldUse (enabled : Bool) (intent : String) (context : Ctx) : ℚ :=
  let baseConfidence := baseShouldUse enabled mcpCapabilities intent context
  let baseConfidence :=
    if ctxTruthy context "user_id" && ctxTruthy context "date" then
      baseConfidence + 3/10
    else baseConfidence
  let intentLower := lowerStr intent
  let keywordMatches :=
    (mcpDataKeywords.filter (fun k => substrOf k intentLower)).length
  let baseConfidence :=
    if keywordMatches > 0 then
      baseConfidence + ((keywordMatches : ℚ) / (mcpDataKeywords.length : ℚ)) * (2/10)
    else baseConfidence
  min 1 baseConfidence

/-! ## Tool registry (`src/tools/registry.py`) -/

/-- A registered tool instance as the registry sees it: its `enabled` flag and
its (virtually dispatched) `should_use` method. The registry's `self._tools`
dict preserves registration (discovery) order, so it is modelled as a list in
that order. -/
structure RegisteredTool where
  name : String
  enabled : Bool
  shouldUse : String → Ctx → ℚ

/-- `ToolRegistry.get_enabled_tools` (lines 102–104). -/
def getEnabledTools (tools : List RegisteredTool) : List RegisteredTool :=
  tools.filter (fun t => t.enabled)

/-- The scoring loop of `get_tools_for_intent` (lines 118–123): score every
enabled tool and keep the pairs whose confidence is at least the threshold,
in discovery order. -/
def scoreCandidates (tools : List RegisteredTool) (intent : String) (context : Ctx)
    (min_confidence : ℚ) : List (RegisteredTool × ℚ) :=
  ((getEnabledTools tools).map (fun t => (t, t.shouldUse intent context))).filter
    (fun p => min_confidence ≤ p.2)

/-- The ordering used by `tool_scores.sort(key=lambda x: x[1], reverse=True)`:
descending confidence. -/
def confGE (a b : RegisteredTool × ℚ) : Prop := b.2 ≤ a.2

instance : DecidableRel confGE := fun a b => inferInstanceAs (Decidable (b.2 ≤ a.2))

instance : IsTotal (RegisteredTool × ℚ) confGE := ⟨fun a b => le_total b.2 a.2⟩

instance : IsTrans (RegisteredTool × ℚ) confGE := ⟨fun _ _ _ h1 h2 => le_trans h2 h1⟩

/-- `ToolRegistry.get_tools_for_intent` (lines 106–127): Python's `list.sort`
is a stable sort, modelled by a stable insertion sort under `confGE`. -/
def getToolsForIntent (tools : List RegisteredTool) (intent : String) (context : Ctx)
    (min_confidence : ℚ) : List (RegisteredTool × ℚ) :=
  List.insertionSort confGE (scoreCandidates tools intent context min_confidence)

/-! ## The spec's scoring formula, written from the spec's words (§4.1) -/

/-- `clamp(x, 0, 1)`. -/
def clamp01 (x : ℚ) : ℚ := min 1 (max 0 x)

/-- The applicability formula exactly as the spec states it: `U` use-case
substring matches, `K` keyword substring matches, `T` the total count, base
`0.1` when `T = 0` and `(U + K) / T` otherwise, an uncapped penalty of `0.2`
per prerequisite key absent from context, and a final clamp to `[0, 1]`.
This definition follows the spec sentence, to be compared with the code's
`baseShouldUse`. -/
def specApplicability (caps : ToolCapability) (intent : String) (context : Ctx) : ℚ :=
  let u := caps.use_cases.countP (fun p => substrOf (lowerStr p) (lowerStr intent))
  let k := caps.confidence_keywords.countP (fun p => substrOf (lowerStr p) (lowerStr intent))
  let t := caps.use_cases.length + caps.confidence_keywords.length
  let base : ℚ := if t = 0 then 1/10 else ((u : ℚ) + (k : ℚ)) / (t : ℚ)
  let missing := caps.prerequisites.countP (fun p => !ctxHasKey context p)
  clamp01 (base - (2/10) * (missing : ℚ))

/-- A context holding truthy `user_id` and `date` values, as used to refute
the claim that a disabled tool always scores `0.0`. -/
def c1DisabledContext : Ctx :=
  [("user_id", .vStr "u1"), ("date", .vStr "2024-01-01")]

/-! ## Context manager state (`src/agent/context_manager.py`) -/

/-- Generic association-list read, used for the manager's
`session_contexts` dict and the preference counters. -/
def alistGet {β : Type} (l : List (String × β)) (k : String) : Option β :=
  (l.find? (fun p => p.1 = k)).map Prod.snd

/-- Python `lst[-n:]` for a nonnegative `n`. Note the edge the source
inherits from Python: `-0` is `0`, so `lst[-0:]` is the whole list, not the
empty suffix. -/
def pySliceLast {α : Type} (n : Nat) (l : List α) : List α :=
  if n = 0 then l else l.drop (l.length - n)

/-- `preferences[key] = preferences.get(key, 0) + 1`. -/
def counterIncr (l : List (String × Nat)) (k : String) : List (String × Nat) :=
  (k, (alistGet l k).getD 0 + 1) :: l

/-- One row of a history entry: tool name, serialized status, and
`result.data is not None`. -/
structure HistoryResultRow where
  tool_name : String
  status : String
  has_data : Bool

/-- One entry of `session_context["history"]`. -/
structure HistoryEntry where
  timestamp : String
  user_request : String
  tool_results : List HistoryResultRow

/-- `session_context["preferences"]`: the `requested_<data_type>` counters
and the nested `tool_combinations` counter dict. -/
structure Preferences where
  requested : List (String × Nat)
  tool_combinations : List (String × Nat)

/-- One value of `self.session_contexts`. -/
structure SessionState where
  history : List HistoryEntry
  recent_tools : List String
  preferences : Preferences
  created_at : String

/-- The fresh session dict created on first use (its `created_at` comes from
the process clock and plays no role in any property; it is modelled as ""). -/
def emptySessionState : SessionState :=
  { history := [], recent_tools := [], preferences := ⟨[], []⟩, created_at := "" }

/-- `ContextManager.__init__` state: the configured history cap and the
per-session dict. -/
structure ContextManager where
  max_history_size : Nat
  session_contexts : List (String × SessionState)

/-- A fresh `ContextManager(max_history_size)`. -/
def ContextManager.init (max_history_size : Nat) : ContextManager :=
  { max_history_size := max_history_size, session_contexts := [] }

/-- `context.get("data_types", [])` decoded as the list of strings the
program always stores there. -/
def ctxGetStrList (ctx : Ctx) (k : String) : List String :=
  match ctxLookup ctx k with
  | some (.vList l) => l.filterMap (fun v => match v with | .vStr s => some s | _ => none)
  | _ => []

/-- A Bool-valued stable insertion used for Python's `sorted` on strings. -/
def insertBy {α : Type} (le : α → α → Bool) (x : α) : List α → List α
  | [] => [x]
  | y :: ys => if le x y then x :: y :: ys else y :: insertBy le x ys

/-- Python `sorted(l)` for strings (the sort key is irrelevant to every
checked property; only that some deterministic order is applied). -/
def sortedStrings (l : List String) : List String :=
  l.foldr (insertBy (fun a b => decide (a < b) || decide (a = b))) []

/-- Python `" + ".join(l)`. -/
def joinPlus (l : List String) : String := String.intercalate " + " l

/-- `ContextManager._extract_preferences` (lines 204–231): bump a
`requested_<data_type>` counter per extracted data type, and — when at least
two tools in the batch succeeded — bump the counter keyed by the sorted,
`+`-joined successful tool names. -/
def extractPreferences (context : Ctx) (tool_results : List ToolResult)
    (preferences : Preferences) : Preferences :=
  let data_types := ctxGetStrList context "data_types"
  let preferences := data_types.foldl
    (fun acc dt => { acc with requested := counterIncr acc.requested ("requested_" ++ dt) })
    preferences
  let successful_tools :=
    (tool_results.filter (fun r => decide (r.status = ToolResultStatus.success))).map
      (fun r => r.tool_name)
  if successful_tools.length > 1 then
    let comboStr := joinPlus (sortedStrings successful_tools)
    { preferences with tool_combinations := counterIncr preferences.tool_combinations comboStr }
  else preferences

/-- The new history entry built by `update_context` (lines 174–185):
timestamp, request text, and for each result its tool name, serialized
status, and `data is not None`. Missing `timestamp` or `user_request` keys
are modelled as empty strings (the program always passes contexts built by
`build_context`, which set both). -/
def newHistoryEntry (context : Ctx) (tool_results : List ToolResult) : HistoryEntry :=
  { timestamp := ctxGetStr context "timestamp" ""
    user_request := ctxGetStr context "user_request" ""
    tool_results := tool_results.map
      (fun r => { tool_name := r.tool_name, status := r.status.value, has_data := r.data.isSome }) }

/-- The new per-session state produced by one `update_context` call: append
the history entry, deduplicate-append the batch's tool names into
`recent_tools` and keep the last 10, truncate history to the configured cap
when it exceeds it, then update preference counters. -/
def updatedSessionState (cm : ContextManager) (context : Ctx)
    (tool_results : List ToolResult) : SessionState :=
  let session_id := ctxGetStr context "session_id" "default"
  let session_context := (alistGet cm.session_contexts session_id).getD emptySessionState
  let history := session_context.history ++ [newHistoryEntry context tool_results]
  let recent_tools := tool_results.foldl
    (fun acc r => if acc.contains r.tool_name then acc else acc ++ [r.tool_name])
    session_context.recent_tools
  let recent_tools := pySliceLast 10 recent_tools
  let history :=
    if history.length > cm.max_history_size then pySliceLast cm.max_history_size history
    else history
  let preferences := extractPreferences context tool_results session_context.preferences
  { history := history, recent_tools := recent_tools, preferences := preferences
    created_at := session_context.created_at }

/-- `ContextManager.update_context` (lines 154–202): lazily create the
session dict, rebuild the session state, and store it back under the
session id. -/
def updateContext (cm : ContextManager) (context : Ctx)
    (tool_results : List ToolResult) : ContextManager :=
  { cm with
    session_contexts :=
      (ctxGetStr context "session_id" "default", updatedSessionState cm context tool_results) ::
        cm.session_contexts }

/-- A whole run of `update_context` calls against one manager. -/
def applyUpdates (cm : ContextManager) (steps : List (Ctx × List ToolResult)) : ContextManager :=
  steps.foldl (fun acc s => updateContext acc s.1 s.2) cm

/-- The context used by the C3 counterexample: one update on a manager
configured with `max_history_size = 0`. -/
def c3ZeroCapContext : Ctx := [("session_id", .vStr "s1")]

/-! ## Tool execution (`IntelligentAgent._execute_tools`, lines 305–344) -/

/-- A concrete tool as the executor calls it: `validate_parameters` then
`execute`, either of which may raise (`Except.error` carries `str(e)`). -/
structure ToolImpl where
  validate : Val → Except String Val
  execute : Val → Except String ToolResult

/-- `tool_registry.get_tool`: the registry's name-to-instance view. -/
abbrev ToolTable := String → Option ToolImpl

/-- Validation followed by execution of one action, as performed inside the
executor's `try` block. -/
def toolRun (tool : ToolImpl) (action : ToolAction) : Except String ToolResult :=
  (tool.validate action.parameters).bind tool.execute

/-- The ascending-priority order used by
`sorted(tool_actions, key=lambda x: x.priority)`. -/
def priLE (a b : ToolAction) : Prop := a.priority ≤ b.priority

instance : DecidableRel priLE := fun a b => inferInstanceAs (Decidable (a.priority ≤ b.priority))

instance : IsTotal ToolAction priLE := ⟨fun a b => le_total a.priority b.priority⟩

instance : IsTrans ToolAction priLE := ⟨fun _ _ _ h1 h2 => le_trans h1 h2⟩

/-- Python's stable `sorted` by ascending priority. -/
def sortByPriority (tool_actions : List ToolAction) : List ToolAction :=
  List.insertionSort priLE tool_actions

/-- The executor's loop over the already-sorted actions: an unknown tool is
skipped; a raising validation/execution is captured into an `error` result
carrying `str(e)` and does not stop the loop; a successful execution appends
its result and writes `context["tool_result_<name>"] = result.data` before
the next action runs. -/
def execActions (tools : ToolTable) : List ToolAction → Ctx → List ToolResult × Ctx
  | [], context => ([], context)
  | action :: rest, context =>
    match tools action.tool_name with
    | none => execActions tools rest context
    | some tool =>
      match toolRun tool action with
      | .ok result =>
        let context2 := ctxInsert context ("tool_result_" ++ action.tool_name)
          (Val.ofOpt result.data)
        let (results, contextF) := execActions tools rest context2
        (result :: results, contextF)
      | .error e =>
        let (results, contextF) := execActions tools rest context
        ({ tool_name := action.tool_name, status := ToolResultStatus.error,
           data := none, error := some e } :: results, contextF)

/-- `IntelligentAgent._execute_tools`: sort by priority, then run the loop. -/
def executeTools (tools : ToolTable) (tool_actions : List ToolAction) (context : Ctx) :
    List ToolResult × Ctx :=
  execActions tools (sortByPriority tool_actions) context

/-- Two actions with explicit priorities (2 then 1) used to exercise the
executor: with ascending-priority order the second is executed first. -/
def c7ActionLow : ToolAction := { tool_name := "analysis_tool", parameters := .vDict [], priority := 2 }

def c7ActionHigh : ToolAction := { tool_name := "database_query", parameters := .vDict [], priority := 1 }

/-- The result produced by the high-priority tool in the C7 witness. -/
def c7ResultHigh : ToolResult :=
  { tool_name := "database_query", status := ToolResultStatus.success,
    data := some (.vDict [("rows", .vNat 3)]), error := none }

def c7ToolHigh : ToolImpl :=
  { validate := fun p => .ok p, execute := fun _ => .ok c7ResultHigh }

def c7ToolLow : ToolImpl :=
  { validate := fun p => .ok p
    execute := fun _ => .ok { tool_name := "analysis_tool", status := ToolResultStatus.success,
                              data := none, error := none } }

def c7Table : ToolTable := fun n =>
  if n = "database_query" then some c7ToolHigh
  else if n = "analysis_tool" then some c7ToolLow
  else none

/-- A tool whose execution raises an exception with an empty message
(`str(ValueError())` is `""`). -/
def c8FailingTool : ToolImpl :=
  { validate := fun p => .ok p, execute := fun _ => .error "" }

def c8Table : ToolTable := fun n => if n = "failing_tool" then some c8FailingTool else none

def c8Action : ToolAction := { tool_name := "failing_tool", parameters := .vDict [], priority := 1 }

/-! ## Sufficiency check (`IntelligentAgent._has_sufficient_information`) -/

/-- One row of the summary sent to the sufficiency prompt. -/
structure SuffRow where
  tool : String
  status : String
  data_available : Bool

/-- `IntelligentAgent._has_sufficient_information` (lines 461–509). The
backend call is the parameter `llm`: `some text` models a reply with content
`text`, `none` models an exception raised by the call; on exception the code
defaults to sufficient when at least one successful result exists. -/
def hasSufficientInformation (user_request : String) (tool_results : List ToolResult)
    (llm : String → List SuffRow → Option String) : Bool :=
  if tool_results.isEmpty then false
  else
    let successful_results :=
      tool_results.filter (fun r => decide (r.status = ToolResultStatus.success))
    if successful_results.isEmpty then false
    else
      let results_summary := successful_results.map
        (fun r => { tool := r.tool_name, status := "success"
                    data_available := (Val.ofOpt r.data).truthy : SuffRow })
      match llm user_request results_summary with
      | some content => startsWithStr "YES" (upperStr (pyStrip content))
      | none => successful_results.length > 0

/-! ## Conversational check (`IntelligentAgent._is_conversational_request`) -/

/-- The fixed phrase list of `_is_conversational_request` (lines 403–408). -/
def conversationalPatterns : List String :=
  ["hi", "hello", "hey", "what model are you", "who are you", "what are you",
   "how are you", "what can you do", "what do you do", "help", "thank you",
   "thanks", "bye", "goodbye", "what\u0027s your name", "introduce yourself",
   "tell me about yourself", "what are your capabilities", "how do you work"]

/-- The data-oriented keywords of the short-request test (lines 418–419). -/
def dataOrientedKeywords : List String :=
  ["table", "data", "query", "search", "find", "show", "get", "list", "database", "snowflake"]

/-- Python `s.split()`: split on whitespace runs, dropping empty pieces. -/
def pySplitWhitespace (s : String) : List String :=
  ((s.data.splitOnP Char.isWhitespace).filter (fun w => !w.isEmpty)).map (fun w => ⟨w⟩)

/-- `IntelligentAgent._is_conversational_request` (lines 399–422): true when
any fixed phrase occurs as a substring of the lower-cased, stripped request,
or when the request has at most 3 words and contains none of the
data-oriented keywords. -/
def isConversationalRequest (user_request : String) : Bool :=
  let request_lower := pyStrip (lowerStr user_request)
  if conversationalPatterns.any (fun p => substrOf p request_lower) then true
  else if (pySplitWhitespace request_lower).length ≤ 3 &&
      !(dataOrientedKeywords.any (fun k => substrOf k request_lower)) then true
  else false

/-! ## Entity extraction (`ContextManager._extract_entities` and
`_parse_date`) -/

/-- The process clock, an external collaborator: `nowIso` is
`datetime.now().isoformat()`, and `dateAt n` is the ISO calendar date `n`
days from today (`_parse_date` uses offsets 0, ±1 and ±7). -/
structure Clock where
  nowIso : String
  dateAt : Int → String

/-- A word character for the purposes of the regex `\b` boundary. -/
def isWordChar (c : Char) : Bool := c.isAlphanum || c = '_'

/-- `\b` after a match: the rest starts with a non-word character or ends. -/
def boundaryAt : List Char → Bool
  | [] => true
  | c :: _ => !isWordChar c

/-- Scan for the first position where `matchAt` fires, honouring the
leading `\b`: a match may only start at the beginning or after a non-word
character. -/
def scanWithBoundary (matchAt : List Char → Option String) : Bool → List Char → Option String
  | _, [] => none
  | atBoundary, c :: rest =>
    if atBoundary then
      match matchAt (c :: rest) with
      | some m => some m
      | none => scanWithBoundary matchAt (!isWordChar c) rest
    else scanWithBoundary matchAt (!isWordChar c) rest

/-- `re.search` of one pattern over a string. -/
def reSearch (matchAt : List Char → Option String) (s : String) : Option String :=
  scanWithBoundary matchAt true s.data

/-- The pattern `\b(\d{4}-\d{2}-\d{2})\b` at one position. -/
def matchIsoDateAt : List Char → Option String
  | d1 :: d2 :: d3 :: d4 :: '-' :: d5 :: d6 :: '-' :: d7 :: d8 :: rest =>
    if [d1, d2, d3, d4, d5, d6, d7, d8].all Char.isDigit && boundaryAt rest then
      some ⟨[d1, d2, d3, d4, '-', d5, d6, '-', d7, d8]⟩
    else none
  | _ => none

/-- The tail `\d{4}\b` of the slash-date pattern, after `pre` was matched. -/
def matchYear4 (pre : List Char) : List Char → Option String
  | y1 :: y2 :: y3 :: y4 :: rest =>
    if [y1, y2, y3, y4].all Char.isDigit && boundaryAt rest then
      some ⟨pre ++ [y1, y2, y3, y4]⟩
    else none
  | _ => none

/-- The tail `\d{1,2}/\d{4}\b` of the slash-date pattern (day then year). -/
def matchDayYear (pre : List Char) : List Char → Option String
  | d1 :: d2 :: rest =>
    if d1.isDigit && d2.isDigit then
      match rest with
      | '/' :: rest2 => matchYear4 (pre ++ [d1, d2, '/']) rest2
      | _ => none
    else if d1.isDigit && d2 = '/' then matchYear4 (pre ++ [d1, '/']) rest
    else none
  | _ => none

/-- The pattern `\b(\d{1,2}/\d{1,2}/\d{4})\b` at one position (the month
part, then day and year). -/
def matchSlashDateAt : List Char → Option String
  | m1 :: m2 :: rest =>
    if m1.isDigit && m2.isDigit then
      match rest with
      | '/' :: rest2 => matchDayYear [m1, m2, '/'] rest2
      | _ => none
    else if m1.isDigit && m2 = '/' then matchDayYear [m1, '/'] rest
    else none
  | _ => none

/-- A `\b(w1|w2|…)\b` alternation of lowercase literal words at one position
(the scan runs over the lower-cased text, modelling `re.IGNORECASE`). -/
def matchAltAt (alts : List String) (l : List Char) : Option String :=
  alts.findSome? (fun a =>
    if a.data.isPrefixOf l && boundaryAt (l.drop a.length) then some a else none)

/-- The five date patterns of `_extract_entities` (lines 77–83), tried in
order with `first match wins`. -/
def datePatternMatchers : List (List Char → Option String) :=
  [matchIsoDateAt, matchSlashDateAt,
   matchAltAt ["today", "yesterday", "tomorrow"],
   matchAltAt ["last week", "this week", "next week"],
   matchAltAt ["last month", "this month", "next month"]]

/-- The date-extraction loop (lines 85–93): the first pattern matching
anywhere in the request wins; the matched text is kept for parsing. -/
def findDateMatch (user_request : String) : Option String :=
  datePatternMatchers.findSome? (fun m => reSearch m (lowerStr user_request))

/-- `ContextManager._parse_date` (lines 124–152): relative terms resolve via
the process clock; anything else falls back to the external `dateutil`
parser, whose exceptions (modelled as `none`) make the whole parse return
`None`. -/
def pyParseDate (clock : Clock) (dateutil : String → Option String)
    (date_str : String) : Option String :=
  let dl := lowerStr date_str
  if dl = "today" then some (clock.dateAt 0)
  else if dl = "yesterday" then some (clock.dateAt (-1))
  else if dl = "tomorrow" then some (clock.dateAt 1)
  else if substrOf "last week" dl then some (clock.dateAt (-7))
  else if substrOf "this week" dl then some (clock.dateAt 0)
  else if substrOf "next week" dl then some (clock.dateAt 7)
  else dateutil date_str

/-- Identifier characters `[a-zA-Z0-9_-]` of the user-id patterns. -/
def idChar (c : Char) : Bool := c.isAlphanum || c = '_' || c = '-'

/-- The pattern `\buser[_\s]*(?:id)?[:\s]+([a-zA-Z0-9_-]+)\b` at one
position. -/
def matchUserPattern1At : List Char → Option String
  | 'u' :: 's' :: 'e' :: 'r' :: rest =>
    let rest1 := rest.dropWhile (fun c => c = '_' || c.isWhitespace)
    let rest2 := match rest1 with
      | 'i' :: 'd' :: r => r
      | _ => rest1
    let sep := rest2.takeWhile (fun c => c = ':' || c.isWhitespace)
    if sep.isEmpty then none
    else
      let ident := (rest2.dropWhile (fun c => c = ':' || c.isWhitespace)).takeWhile idChar
      if ident.isEmpty then none else some ⟨ident⟩
  | _ => none

/-- The pattern `\bfor\s+user\s+([a-zA-Z0-9_-]+)\b` at one position. -/
def matchUserPattern2At : List Char → Option String
  | 'f' :: 'o' :: 'r' :: rest =>
    if (rest.takeWhile Char.isWhitespace).isEmpty then none
    else
      match rest.dropWhile Char.isWhitespace with
      | 'u' :: 's' :: 'e' :: 'r' :: rest2 =>
        if (rest2.takeWhile Char.isWhitespace).isEmpty then none
        else
          let ident := (rest2.dropWhile Char.isWhitespace).takeWhile idChar
          if ident.isEmpty then none else some ⟨ident⟩
      | _ => none
  | _ => none

/-- The domain part `[a-zA-Z0-9.-]+\.[a-zA-Z]{2,}\b` of the email pattern:
the domain run must end in a dot followed by at least two letters. -/
def emailDomainOk (l : List Char) : Bool :=
  let dom := l.takeWhile (fun c => c.isAlphanum || c = '.' || c = '-')
  let parts := dom.splitOnP (fun c => c = '.')
  parts.length ≥ 2 &&
    (match parts.getLast? with
     | some lastPart => lastPart.length ≥ 2 && lastPart.all Char.isAlpha
     | none => false)

/-- The email pattern `\b([a-zA-Z0-9_-]+)@…` at one position; the captured
group is the local part. -/
def matchEmailAt (l : List Char) : Option String :=
  let localPart := l.takeWhile idChar
  if localPart.isEmpty then none
  else
    match l.drop localPart.length with
    | '@' :: rest => if emailDomainOk rest then some ⟨localPart⟩ else none
    | _ => none

/-- The user-identifier loop (lines 96–106): three patterns tried in order,
first match wins. -/
def findUserIdMatch (user_request : String) : Option String :=
  [matchUserPattern1At, matchUserPattern2At, matchEmailAt].findSome?
    (fun m => reSearch m (lowerStr user_request))

/-- The topic vocabulary of `_extract_entities` (lines 109–115). -/
def dataTypeKeywords : List (String × List String) :=
  [("activity", ["activity", "activities", "actions", "behavior"]),
   ("preferences", ["preferences", "settings", "configuration"]),
   ("history", ["history", "historical", "past", "previous"]),
   ("summary", ["summary", "report", "overview", "digest"]),
   ("analysis", ["analysis", "insights", "trends", "patterns"])]

/-- `ContextManager._extract_entities` (lines 70–122): a date (first
matching pattern, resolved by `_parse_date`; both `date` and
`original_date_text` are set only when parsing succeeds), a user identifier
(first matching pattern), and all matching topic labels under
`data_types`. -/
def extractEntities (clock : Clock) (dateutil : String → Option String)
    (user_request : String) : Ctx :=
  let datePart : Ctx :=
    match findDateMatch user_request with
    | some dateStr =>
      match pyParseDate clock dateutil dateStr with
      | some parsed => [("date", .vStr parsed), ("original_date_text", .vStr dateStr)]
      | none => []
    | none => []
  let userPart : Ctx :=
    match findUserIdMatch user_request with
    | some uid => [("extracted_user_id", .vStr uid)]
    | none => []
  let request_lower := lowerStr user_request
  let dataTypes :=
    (dataTypeKeywords.filter (fun g => g.2.any (fun k => substrOf k request_lower))).map Prod.fst
  let dataTypesPart : Ctx :=
    if dataTypes.isEmpty then [] else [("data_types", .vList (dataTypes.map .vStr))]
  dataTypesPart ++ userPart ++ datePart

/-! ## `ContextManager.build_context` (lines 24–68) -/

/-- Encoding of a stored history row back into a context value. -/
def historyRowVal (row : HistoryResultRow) : Val :=
  .vDict [("tool_name", .vStr row.tool_name), ("status", .vStr row.status),
          ("has_data", .vBool row.has_data)]

/-- Encoding of a stored history entry back into a context value. -/
def historyEntryVal (e : HistoryEntry) : Val :=
  .vDict [("timestamp", .vStr e.timestamp), ("user_request", .vStr e.user_request),
          ("tool_results", .vList (e.tool_results.map historyRowVal))]

/-- Encoding of the stored preferences back into a context value. -/
def preferencesVal (p : Preferences) : Val :=
  .vDict (p.requested.map (fun kv => (kv.1, Val.vNat kv.2)) ++
    [("tool_combinations", .vDict (p.tool_combinations.map (fun kv => (kv.1, Val.vNat kv.2))))])

/-- `ContextManager.build_context`: base fields, optional `user_id` (only a
truthy one is stored), extracted entities, then — only when a truthy
`session_id` was passed and a session exists — the three session keys, and
finally the caller-supplied `additional_context`, whose keys win. Merging is
by prepending, so the first binding found by `ctxLookup` is the effective
one. -/
def buildContext (cm : ContextManager) (clock : Clock)
    (dateutil : String → Option String) (user_request : String)
    (user_id : Option String) (session_id : Option String)
    (additional_context : Ctx) : Ctx :=
  let base : Ctx :=
    [("user_request", .vStr user_request), ("timestamp", .vStr clock.nowIso),
     ("session_id", .vStr (session_id.getD "default"))]
  let userPart : Ctx :=
    match user_id with
    | some u => if u = "" then [] else [("user_id", .vStr u)]
    | none => []
  let entities := extractEntities clock dateutil user_request
  let sessionPart : Ctx :=
    match session_id with
    | some sid =>
      if sid = "" then []
      else
        match alistGet cm.session_contexts sid with
        | some sc =>
          [("conversation_history", .vList (sc.history.map historyEntryVal)),
           ("recent_tool_usage", .vList (sc.recent_tools.map .vStr)),
           ("user_preferences", preferencesVal sc.preferences)]
        | none => []
    | none => []
  additional_context ++ sessionPart ++ entities ++ userPart ++ base

/-! ## Orchestration loop (`IntelligentAgent.process_request`, lines 73–176) -/

/-- The language-model backend and the planning step, as the loop consumes
them. `planActions` models `_analyze_and_select_tools` (selector ranking,
the planning prompt, JSON extraction and the deterministic fallback — its
output is the action list the loop receives). `suffLLM`, `convLLM` and
`synthLLM` are the three backend call shapes; `none` models a raised
exception. -/
structure Oracles where
  planActions : String → Ctx → List ToolAction
  suffLLM : String → List SuffRow → Option String
  convLLM : String → Option String
  synthLLM : String → List ToolResult → Option String

/-- `_generate_conversational_response` (lines 424–459): backend reply, with
the canned fallback used when the call raises. -/
def generateConversationalResponse (O : Oracles) (user_request : String) : String :=
  match O.convLLM user_request with
  | some content => content
  | none => "Hello! I\u0027m an AI assistant that can help you with database queries, document searches, data analysis, and more. How can I assist you today?"

/-- `_generate_response` (lines 346–397): backend reply, with the fallback
sentence used when the call raises. -/
def generateResponse (O : Oracles) (user_request : String)
    (tool_results : List ToolResult) : String :=
  match O.synthLLM user_request tool_results with
  | some content => content
  | none => "I processed your request using " ++ toString tool_results.length ++ " tools, but encountered an error generating the final response. The tools executed successfully and gathered the requested information."

/-- The compact `previous_results` summary folded into each iteration's
context (line 121): tool, serialized status, and `bool(r.data)`. -/
def previousResultsVal (results : List ToolResult) : Val :=
  .vList (results.map (fun r =>
    .vDict [("tool", .vStr r.tool_name), ("status", .vStr r.status.value),
            ("has_data", .vBool (Val.ofOpt r.data).truthy)]))

/-- What one run of the iteration loop produces. -/
structure LoopOutcome where
  results : List ToolResult
  actions : List ToolAction
  cm : ContextManager
  iterations : Nat

/-- The `while iteration < max_iterations` loop of `process_request`
(lines 110–137), with the remaining iteration budget as fuel. Each pass:
build the iteration context with the `previous_results` summary, ask the
planning step, stop if it returns no actions, execute the actions (the
iteration context, not the outer one, receives the `tool_result_<name>`
writes), stop if the sufficiency check says enough, otherwise fold the
results into the session state and continue. `iterations` counts the loop
bodies entered. -/
def agentLoop (O : Oracles) (tools : ToolTable) (user_request : String) (context : Ctx) :
    Nat → List ToolResult → List ToolAction → ContextManager → LoopOutcome
  | 0, allResults, allActions, cm =>
    { results := allResults, actions := allActions, cm := cm, iterations := 0 }
  | fuel + 1, allResults, allActions, cm =>
    let current_context := ctxInsert context "previous_results" (previousResultsVal allResults)
    let tool_actions := O.planActions user_request current_context
    if tool_actions.isEmpty then
      { results := allResults, actions := allActions, cm := cm, iterations := 1 }
    else
      let tool_results := (executeTools tools tool_actions current_context).1
      let allResults2 := allResults ++ tool_results
      let allActions2 := allActions ++ tool_actions
      if hasSufficientInformation user_request allResults2 O.suffLLM then
        { results := allResults2, actions := allActions2, cm := cm, iterations := 1 }
      else
        let cm2 := updateContext cm context tool_results
        let out := agentLoop O tools user_request context fuel allResults2 allActions2 cm2
        { results := out.results, actions := out.actions, cm := out.cm
          iterations := out.iterations + 1 }

/-- `max_iterations = 3` (line 113). -/
def maxIterations : Nat := 3

/-- The response record `process_request` returns (the serialized forms of
results and actions are kept structural). -/
structure ProcessResponse where
  response : String
  status : String
  tool_results : List ToolResult
  tool_actions : List ToolAction
  context : Ctx

/-- `IntelligentAgent.process_request` (lines 73–176): build the request
context (no `session_id` is ever passed), short-circuit conversational
requests, otherwise iterate up to 3 times, fall back to a conversational
reply when no tool result at all was produced, and otherwise synthesize the
final response and fold the full result set into the session state. Nothing
raises in the model, so the `error` status branch is unreachable here. -/
def processRequest (O : Oracles) (tools : ToolTable) (clock : Clock)
    (dateutil : String → Option String) (cm : ContextManager)
    (user_request : String) (user_id : Option String)
    (additional_context : Ctx) : ProcessResponse × ContextManager :=
  let context := buildContext cm clock dateutil user_request user_id none additional_context
  if isConversationalRequest user_request then
    ({ response := generateConversationalResponse O user_request
       status := "conversational", tool_results := [], tool_actions := []
       context := context }, cm)
  else
    let out := agentLoop O tools user_request context maxIterations [] [] cm
    if out.results.isEmpty then
      ({ response := generateConversationalResponse O user_request
         status := "conversational_fallback", tool_results := [], tool_actions := []
         context := context }, out.cm)
    else
      let final_response := generateResponse O user_request out.results
      let cmFinal := updateContext out.cm context out.results
      ({ response := final_response, status := "success", tool_results := out.results
         tool_actions := out.actions, context := context }, cmFinal)

/-! ## Concrete instances used by witnesses -/

/-- A planner that always proposes one database action, a backend that
always judges the information insufficient. -/
def c5Oracles : Oracles :=
  { planActions := fun _ _ =>
      [{ tool_name := "database_query", parameters := .vDict [], priority := 1 }]
    suffLLM := fun _ _ => some "NO"
    convLLM := fun _ => none
    synthLLM := fun _ _ => none }

def c5Table : ToolTable := fun n =>
  if n = "database_query" then
    some { validate := fun p => .ok p
           execute := fun _ => .ok { tool_name := "database_query",
                                     status := ToolResultStatus.success,
                                     data := some (.vDict []), error := none } }
  else none

def c5Clock : Clock := { nowIso := "2026-10-12T00:00:00", dateAt := fun _ => "2026-10-12" }

def c5Request : String := "show all tables available in the warehouse"

/-- The request context `process_request` builds for the C5 witness run. -/
def c5Context : Ctx :=
  buildContext (ContextManager.init 50) c5Clock (fun _ => none) c5Request none none []

/-- A long, data-oriented request that contains the conversational pattern
`"hi"` inside the word `"shipping"`. -/
def c9Request : String := "show me shipping data for user u42 from the database"

def c9Oracles : Oracles :=
  { planActions := fun _ _ => []
    suffLLM := fun _ _ => none
    convLLM := fun _ => some "hello there"
    synthLLM := fun _ _ => none }

/-! # Theorems -/

/-! ## Helper lemmas -/

/-- Inserting under `confGE` does not change the sublist of entries carrying
any fixed confidence value: the element is placed after every strictly larger
entry and before every entry it ties with. -/
theorem orderedInsert_filter_confEq (a : RegisteredTool × ℚ) (q : ℚ) :
    ∀ l : List (RegisteredTool × ℚ),
      (List.orderedInsert confGE a l).filter (fun p => p.2 = q) =
        (a :: l).filter (fun p => p.2 = q)
  | [] => rfl
  | b :: l => by
    by_cases hab : confGE a b
    · rw [List.orderedInsert_of_le confGE _ hab]
    · have hlt : a.2 < b.2 := lt_of_not_le hab
      have hrec := orderedInsert_filter_confEq a q l
      by_cases ha : a.2 = q
      · have hb : ¬ b.2 = q := by rw [← ha]; exact ne_of_gt hlt
        simp only [List.orderedInsert, if_neg hab, List.filter_cons, hrec,
          decide_eq_true_eq, ha, hb, if_true, if_false]
      · simp only [List.orderedInsert, if_neg hab, List.filter_cons, hrec,
          decide_eq_true_eq, ha, if_false]

/-- The stable insertion sort under `confGE` preserves the relative order of
entries with equal confidence. -/
theorem insertionSort_filter_confEq (q : ℚ) :
    ∀ l : List (RegisteredTool × ℚ),
      (List.insertionSort confGE l).filter (fun p => p.2 = q) =
        l.filter (fun p => p.2 = q)
  | [] => rfl
  | a :: l => by
    rw [List.insertionSort, orderedInsert_filter_confEq, List.filter_cons, List.filter_cons,
      insertionSort_filter_confEq q l]

/-- Reading a freshly written association-list binding. -/
theorem alistGet_cons {β : Type} (k k' : String) (v : β) (l : List (String × β)) :
    alistGet ((k, v) :: l) k' = if k = k' then some v else alistGet l k' := by
  by_cases h : k = k'
  · simp [alistGet, List.find?, h]
  · simp only [alistGet, List.find?]
    simp [h]

/-- `lst[-n:]` for positive `n` keeps at most `n` elements. -/
theorem pySliceLast_length_le {α : Type} (n : Nat) (hn : n ≠ 0) (l : List α) :
    (pySliceLast n l).length ≤ n := by
  simp only [pySliceLast, if_neg hn, List.length_drop]
  omega

/-- `lst[-n:]` is always a sublist of `lst`. -/
theorem pySliceLast_sublist {α : Type} (n : Nat) (l : List α) :
    (pySliceLast n l).Sublist l := by
  unfold pySliceLast
  split
  · exact List.Sublist.refl l
  · exact List.drop_sublist _ l

/-- The truncation step of `update_context` leaves at most `maxSize`
entries when `maxSize` is positive. -/
theorem truncLength_le {α : Type} (maxSize : Nat) (hne : maxSize ≠ 0) (l : List α) :
    (if l.length > maxSize then pySliceLast maxSize l else l).length ≤ maxSize := by
  by_cases h : l.length > maxSize
  · simpa [h] using pySliceLast_length_le maxSize hne l
  · simp only [h, if_false]
    omega

/-- The dedup-append loop over a batch of results keeps `recent_tools`
duplicate-free. -/
theorem recentToolsFold_nodup (tool_results : List ToolResult) :
    ∀ acc : List String, acc.Nodup →
      (tool_results.foldl
        (fun acc r => if acc.contains r.tool_name then acc else acc ++ [r.tool_name]) acc).Nodup := by
  induction tool_results with
  | nil => intro acc h; exact h
  | cons r rs ih =>
    intro acc h
    simp only [List.foldl_cons]
    by_cases hc : acc.contains r.tool_name
    · rw [if_pos hc]
      exact ih acc h
    · rw [if_neg hc]
      refine ih _ ?_
      have hnotmem : r.tool_name ∉ acc := by simpa using hc
      simp [List.nodup_append, h, hnotmem]

/-- The session state written by one `update_context` call satisfies the
bounds, given that the state it starts from does and the cap is positive. -/
theorem updatedSessionState_bounds (cm : ContextManager) (context : Ctx)
    (tool_results : List ToolResult) (hcap : cm.max_history_size ≠ 0)
    (hinv : ∀ sid sc, alistGet cm.session_contexts sid = some sc →
      sc.history.length ≤ cm.max_history_size ∧ sc.recent_tools.length ≤ 10 ∧
        sc.recent_tools.Nodup) :
    (updatedSessionState cm context tool_results).history.length ≤ cm.max_history_size ∧
      (updatedSessionState cm context tool_results).recent_tools.length ≤ 10 ∧
        (updatedSessionState cm context tool_results).recent_tools.Nodup := by
  have hn0 : ((alistGet cm.session_contexts
      (ctxGetStr context "session_id" "default")).getD emptySessionState).recent_tools.Nodup := by
    cases hfind : alistGet cm.session_contexts (ctxGetStr context "session_id" "default") with
    | none => simp [emptySessionState]
    | some s => simpa using (hinv _ s hfind).2.2
  refine ⟨?_, ?_, ?_⟩
  · exact truncLength_le cm.max_history_size hcap _
  · exact pySliceLast_length_le 10 (by omega) _
  · exact List.Nodup.sublist (pySliceLast_sublist 10 _)
      (recentToolsFold_nodup tool_results _ hn0)

/-- One `update_context` call preserves the session bounds, provided the
configured cap is at least 1. -/
theorem updateContext_preserves_bounds (cm : ContextManager) (context : Ctx)
    (tool_results : List ToolResult) (hcap : 1 ≤ cm.max_history_size)
    (hinv : ∀ sid sc, alistGet cm.session_contexts sid = some sc →
      sc.history.length ≤ cm.max_history_size ∧ sc.recent_tools.length ≤ 10 ∧
        sc.recent_tools.Nodup) :
    ∀ sid sc, alistGet (updateContext cm context tool_results).session_contexts sid = some sc →
      sc.history.length ≤ cm.max_history_size ∧ sc.recent_tools.length ≤ 10 ∧
        sc.recent_tools.Nodup := by
  intro sid sc h
  rw [updateContext] at h
  rw [alistGet_cons] at h
  by_cases hsid : ctxGetStr context "session_id" "default" = sid
  · rw [if_pos hsid] at h
    cases h
    exact updatedSessionState_bounds cm context tool_results (by omega) hinv
  · rw [if_neg hsid] at h
    exact hinv sid sc h

/-- When the backend always answers `"NO"`, the sufficiency check is false
for every batch. -/
theorem hasSufficientInformation_of_no (user_request : String)
    (tool_results : List ToolResult) (llm : String → List SuffRow → Option String)
    (hno : ∀ req rows, llm req rows = some "NO") :
    hasSufficientInformation user_request tool_results llm = false := by
  unfold hasSufficientInformation
  by_cases h1 : tool_results.isEmpty
  · simp [h1]
  · simp only [h1, if_false]
    by_cases h2 :
        (tool_results.filter (fun r => decide (r.status = ToolResultStatus.success))).isEmpty
    · simp [h2]
    · simp only [h2, if_false, hno]
      decide

/-- The loop never runs more bodies than it has fuel. -/
theorem agentLoop_iterations_le (O : Oracles) (tools : ToolTable) (user_request : String)
    (context : Ctx) :
    ∀ (fuel : Nat) (allR : List ToolResult) (allA : List ToolAction) (cm : ContextManager),
      (agentLoop O tools user_request context fuel allR allA cm).iterations ≤ fuel := by
  intro fuel
  induction fuel with
  | zero => intro allR allA cm; simp [agentLoop]
  | succ n ih =>
    intro allR allA cm
    simp only [agentLoop]
    by_cases h1 : (O.planActions user_request
        (ctxInsert context "previous_results" (previousResultsVal allR))).isEmpty
    · simp [h1]
    · simp only [h1, Bool.false_eq_true, if_false]
      by_cases h2 : hasSufficientInformation user_request
          (allR ++ (executeTools tools (O.planActions user_request
            (ctxInsert context "previous_results" (previousResultsVal allR)))
            (ctxInsert context "previous_results" (previousResultsVal allR))).1) O.suffLLM
      · simp [h2]
      · simp only [h2, Bool.false_eq_true, if_false]
        have := ih (allR ++ (executeTools tools (O.planActions user_request
            (ctxInsert context "previous_results" (previousResultsVal allR)))
            (ctxInsert context "previous_results" (previousResultsVal allR))).1)
          (allA ++ O.planActions user_request
            (ctxInsert context "previous_results" (previousResultsVal allR)))
          (updateContext cm context (executeTools tools (O.planActions user_request
            (ctxInsert context "previous_results" (previousResultsVal allR)))
            (ctxInsert context "previous_results" (previousResultsVal allR))).1)
        omega

/-- With a planner that always returns actions and a backend that always
answers `"NO"`, the loop consumes its whole fuel. -/
theorem agentLoop_iterations_eq_fuel (O : Oracles) (tools : ToolTable)
    (user_request : String) (context : Ctx)
    (hplan : ∀ ctx, O.planActions user_request ctx ≠ [])
    (hno : ∀ req rows, O.suffLLM req rows = some "NO") :
    ∀ (fuel : Nat) (allR : List ToolResult) (allA : List ToolAction) (cm : ContextManager),
      (agentLoop O tools user_request context fuel allR allA cm).iterations = fuel := by
  intro fuel
  induction fuel with
  | zero => intro allR allA cm; simp [agentLoop]
  | succ n ih =>
    intro allR allA cm
    simp only [agentLoop]
    have h1 : (O.planActions user_request
        (ctxInsert context "previous_results" (previousResultsVal allR))).isEmpty = false := by
      rcases h : O.planActions user_request
          (ctxInsert context "previous_results" (previousResultsVal allR)) with _ | _
      · exact absurd h (hplan _)
      · rfl
    simp only [h1, Bool.false_eq_true, if_false]
    rw [hasSufficientInformation_of_no _ _ _ hno]
    simp only [Bool.false_eq_true, if_false, ih]

/-- Context lookup distributes over the merge of two dict fragments. -/
theorem ctxLookup_append (l1 l2 : Ctx) (k : String) :
    ctxLookup (l1 ++ l2) k = (ctxLookup l1 k).or (ctxLookup l2 k) := by
  unfold ctxLookup
  rw [List.find?_append]
  cases List.find? (fun p => decide (p.1 = k)) l1 <;> rfl

/-- Entity extraction only ever binds the four keys `date`,
`original_date_text`, `extracted_user_id` and `data_types`. -/
theorem extractEntities_lookup_eq_none (clock : Clock) (dateutil : String → Option String)
    (user_request : String) (k : String) (h1 : ¬ ("date" = k))
    (h2 : ¬ ("original_date_text" = k)) (h3 : ¬ ("extracted_user_id" = k))
    (h4 : ¬ ("data_types" = k)) :
    ctxLookup (extractEntities clock dateutil user_request) k = none := by
  unfold extractEntities
  rw [ctxLookup_append, ctxLookup_append]
  have hdate : ∀ l : Ctx,
      (l = [] ∨ ∃ a b, l = [("date", a), ("original_date_text", b)]) →
        ctxLookup l k = none := by
    rintro l (rfl | ⟨a, b, rfl⟩)
    · rfl
    · simp [ctxLookup, List.find?, h1, h2]
  have huser : ∀ l : Ctx, (l = [] ∨ ∃ a, l = [("extracted_user_id", a)]) →
      ctxLookup l k = none := by
    rintro l (rfl | ⟨a, rfl⟩)
    · rfl
    · simp [ctxLookup, List.find?, h3]
  have hdt : ∀ l : Ctx, (l = [] ∨ ∃ a, l = [("data_types", a)]) → ctxLookup l k = none := by
    rintro l (rfl | ⟨a, rfl⟩)
    · rfl
    · simp [ctxLookup, List.find?, h4]
  rw [hdt _ ?_, huser _ ?_, hdate _ ?_]
  · rfl
  · cases hfd : findDateMatch user_request with
    | none => left; rfl
    | some d =>
      cases hpd : pyParseDate clock dateutil d with
      | none => left; simp [hpd]
      | some parsed => right; exact ⟨Val.vStr parsed, Val.vStr d, by simp [hpd]⟩
  · cases findUserIdMatch user_request
    · left; rfl
    · right; exact ⟨_, rfl⟩
  · by_cases hmatch : (dataTypeKeywords.filter
        (fun g => g.2.any (fun kw => substrOf kw (lowerStr user_request)))).map Prod.fst = []
    · left
      simp [hmatch]
    · right
      refine ⟨.vList (((dataTypeKeywords.filter
        (fun g => g.2.any (fun kw => substrOf kw (lowerStr user_request)))).map Prod.fst).map .vStr), ?_⟩
      have hne : ((dataTypeKeywords.filter
          (fun g => g.2.any (fun kw => substrOf kw (lowerStr user_request)))).map Prod.fst).isEmpty
            = false := by
        cases hcase : (dataTypeKeywords.filter
            (fun g => g.2.any (fun kw => substrOf kw (lowerStr user_request)))).map Prod.fst
        · exact absurd hcase hmatch
        · rfl
      simp [hne]

/-! ## Claim theorems -/

/-- C1 (counterexample): the claim says every disabled tool — including the
MCP database tool with its contextual boosts — returns exactly `0.0` from
`should_use`. It is false: a disabled `MCPDatabaseTool`, asked about intent
`"data"` with truthy `user_id` and `date` in context, returns
`0 + 0.3 + (1/6)·0.2 = 1/3 ≠ 0`, because the boosts are added after the base
scorer without re-checking `enabled`. -/
theorem C1_counterexample_disabled_mcp_tool_scores_nonzero :
    mcpShouldUse false "data" c1DisabledContext = 1/3 ∧
      mcpShouldUse false "data" c1DisabledContext ≠ 0 := by
  have h1 : (List.filter (fun k => substrOf k (lowerStr "data"))
      ["data", "activity", "history", "user", "database", "query"]).length = 1 := by
    decide
  have h2 : ctxTruthy c1DisabledContext "user_id" = true := by decide
  have h3 : ctxTruthy c1DisabledContext "date" = true := by decide
  have h4 : baseShouldUse false mcpCapabilities "data" c1DisabledContext = 0 := by
    simp [baseShouldUse]
  have hv : mcpShouldUse false "data" c1DisabledContext = 1/3 := by
    simp only [mcpShouldUse, h1, h2, h3, h4, mcpDataKeywords]
    norm_num [min_def]
  exact ⟨hv, by rw [hv]; norm_num⟩

/-- C1 (amended): a disabled tool that uses the default scorer
(`BaseTool.should_use`) returns exactly `0.0` for every intent and context;
concrete tools that override `should_use` with post-hoc contextual boosts
(the MCP database tool) do not satisfy this. -/
theorem C1_amended_disabled_default_scorer_returns_zero
    (caps : ToolCapability) (intent : String) (context : Ctx) :
    baseShouldUse false caps intent context = 0 := by
  simp [baseShouldUse]

/-- C2: for every enabled tool using the default scorer, the returned score
equals the spec's formula `clamp(base − 0.2·missing, 0, 1)` with
`base = 0.1` when there are no use-cases and no keywords, and
`base = (U + K)/T` otherwise. -/
theorem C2_default_scorer_matches_spec_formula
    (caps : ToolCapability) (intent : String) (context : Ctx) :
    baseShouldUse true caps intent context = specApplicability caps intent context := by
  simp only [baseShouldUse, specApplicability, clamp01,
    List.countP_eq_length_filter, Bool.not_true, Bool.false_eq_true, if_false]
  ring_nf

/-- C3 (counterexample): the claim says the history list never exceeds the
configured cap after any number of `update_context` calls on a
`ContextManager`. A manager configured with `max_history_size = 0` refutes
it: after a single `update_context` call the session history has length 1,
which exceeds the cap 0, because the truncation `history[-max_history_size:]`
is `history[-0:]`, the whole list. -/
theorem C3_counterexample_zero_cap_history_exceeds :
    ((alistGet (updateContext (ContextManager.init 0) c3ZeroCapContext []).session_contexts
          "s1").map (fun sc => sc.history.length)) = some 1 ∧ ¬ (1 ≤ (0 : Nat)) :=
  ⟨rfl, by omega⟩

/-- C3 (amended): after any number of `update_context` calls on a fresh
`ContextManager` whose configured cap is at least 1 (the default is 50), every
session satisfies: the history length never exceeds the cap, `recent_tools`
never exceeds 10 entries, and `recent_tools` contains no duplicates; moreover
the truncation keeps a suffix of the list (the oldest entries are the ones
dropped). -/
theorem C3_amended_session_bounds (max_history_size : Nat)
    (steps : List (Ctx × List ToolResult)) (hcap : 1 ≤ max_history_size) :
    (∀ sid sc,
      alistGet (applyUpdates (ContextManager.init max_history_size) steps).session_contexts sid
          = some sc →
        sc.history.length ≤ max_history_size ∧ sc.recent_tools.length ≤ 10 ∧
          sc.recent_tools.Nodup) ∧
      (∀ (n : Nat) (l : List HistoryEntry), n ≠ 0 → pySliceLast n l <:+ l) := by
  constructor
  · have hgen : ∀ (steps : List (Ctx × List ToolResult)) (cm : ContextManager),
        1 ≤ cm.max_history_size →
        (∀ sid sc, alistGet cm.session_contexts sid = some sc →
          sc.history.length ≤ cm.max_history_size ∧ sc.recent_tools.length ≤ 10 ∧
            sc.recent_tools.Nodup) →
        ∀ sid sc, alistGet (applyUpdates cm steps).session_contexts sid = some sc →
          sc.history.length ≤ cm.max_history_size ∧ sc.recent_tools.length ≤ 10 ∧
            sc.recent_tools.Nodup := by
      intro steps
      induction steps with
      | nil => intro cm _ hinv; exact hinv
      | cons s rest ih =>
        intro cm hc hinv
        have hstep := updateContext_preserves_bounds cm s.1 s.2 hc hinv
        have hmax : (updateContext cm s.1 s.2).max_history_size = cm.max_history_size := rfl
        intro sid sc h
        have := ih (updateContext cm s.1 s.2) (by rw [hmax]; exact hc) (by rw [hmax]; exact hstep)
          sid sc h
        rwa [hmax] at this
    intro sid sc h
    exact hgen steps (ContextManager.init max_history_size) hcap (by intro _ _ hx; cases hx) sid sc h
  · intro n l hn
    simp only [pySliceLast, if_neg hn]
    exact List.drop_suffix _ l

/-- C3 (witness): the amended bounds instantiated on a fresh manager with the
default cap 50 after one `update_context` call. -/
theorem C3_amended_session_bounds_witness :
    1 ≤ 50 ∧
      (((alistGet (applyUpdates (ContextManager.init 50)
            [(c3ZeroCapContext, [])]).session_contexts "s1").getD
          emptySessionState).history.length ≤ 50 ∧
        ((alistGet (applyUpdates (ContextManager.init 50)
            [(c3ZeroCapContext, [])]).session_contexts "s1").getD
          emptySessionState).recent_tools.length ≤ 10 ∧
        ((alistGet (applyUpdates (ContextManager.init 50)
            [(c3ZeroCapContext, [])]).session_contexts "s1").getD
          emptySessionState).recent_tools.Nodup) :=
  ⟨by omega,
    (C3_amended_session_bounds 50 [(c3ZeroCapContext, [])] (by omega)).1 "s1" _ rfl⟩

/-- C4: for every batch of tool results with zero successes (including the
empty batch), `_has_sufficient_information` returns false for every possible
behaviour of the language-model backend — whatever it would answer
(`some content`) and whether the call would raise (`none`), the backend
plays no role in the outcome. -/
theorem C4_no_success_insufficient_regardless_of_backend
    (user_request : String) (tool_results : List ToolResult)
    (h : ∀ r ∈ tool_results, r.status ≠ ToolResultStatus.success) :
    ∀ llm : String → List SuffRow → Option String,
      hasSufficientInformation user_request tool_results llm = false := by
  intro llm
  unfold hasSufficientInformation
  by_cases hempty : tool_results.isEmpty
  · simp [hempty]
  · have hfilter :
        tool_results.filter (fun r => decide (r.status = ToolResultStatus.success)) = [] := by
      rw [List.filter_eq_nil_iff]
      intro r hr
      simpa using h r hr
    simp [hempty, hfilter]

/-- C4 (witness): a batch holding a single error result is judged
insufficient even when the backend would answer `"YES"`. -/
theorem C4_no_success_insufficient_witness :
    hasSufficientInformation "what did user u1 do"
      [{ tool_name := "database_query", status := ToolResultStatus.error,
         data := none, error := some "boom" }]
      (fun _ _ => some "YES") = false :=
  C4_no_success_insufficient_regardless_of_backend _ _
    (by intro r hr; simp at hr; rw [hr]; simp) _

/-- The executor's loop splits over list concatenation: the second half runs
from the context the first half left behind. -/
theorem execActions_append (tools : ToolTable) :
    ∀ (xs ys : List ToolAction) (ctx : Ctx),
      execActions tools (xs ++ ys) ctx =
        ((execActions tools xs ctx).1 ++
            (execActions tools ys (execActions tools xs ctx).2).1,
          (execActions tools ys (execActions tools xs ctx).2).2) := by
  intro xs
  induction xs with
  | nil => intro ys ctx; simp [execActions]
  | cons a rest ih =>
    intro ys ctx
    simp only [List.cons_append, execActions]
    cases htool : tools a.tool_name with
    | none => exact ih ys ctx
    | some tool =>
      cases hrun : toolRun tool a with
      | ok r => simp only [hrun, List.append_eq, ih, List.cons_append]
      | error e => simp only [hrun, List.append_eq, ih, List.cons_append]

/-- A single successfully executed action appends its result and writes its
data into the context. -/
theorem execActions_singleton_ok (tools : ToolTable) (a : ToolAction) (tool : ToolImpl)
    (r : ToolResult) (ctx : Ctx) (htool : tools a.tool_name = some tool)
    (hrun : toolRun tool a = Except.ok r) :
    execActions tools [a] ctx =
      ([r], ctxInsert ctx ("tool_result_" ++ a.tool_name) (Val.ofOpt r.data)) := by
  simp [execActions, htool, hrun]

/-- Reading back the binding just written by `ctxInsert`. -/
theorem ctxLookup_insert_self (ctx : Ctx) (k : String) (v : Val) :
    ctxLookup (ctxInsert ctx k v) k = some v := by
  simp [ctxLookup, ctxInsert, List.find?]

/-- C7: the sequential executor runs the actions of an iteration in
non-decreasing `priority` order (the executed sequence is a permutation of
the given actions, sorted ascending by priority by Python's stable sort),
and every successfully executed action has its result data written into the
context under `tool_result_<tool_name>` before the remaining actions run:
the rest of the sequence is executed from a context in which that key maps
to the action's result data. -/
theorem C7_priority_order_and_context_threading (tools : ToolTable)
    (tool_actions : List ToolAction) :
    (sortByPriority tool_actions).Perm tool_actions ∧
      List.Sorted priLE (sortByPriority tool_actions) ∧
      (∀ ctx, executeTools tools tool_actions ctx =
        execActions tools (sortByPriority tool_actions) ctx) ∧
      (∀ (l1 : List ToolAction) (a : ToolAction) (l2 : List ToolAction) (ctx : Ctx)
          (tool : ToolImpl) (r : ToolResult),
        sortByPriority tool_actions = l1 ++ a :: l2 →
        tools a.tool_name = some tool →
        toolRun tool a = Except.ok r →
        ctxLookup (execActions tools (l1 ++ [a]) ctx).2 ("tool_result_" ++ a.tool_name)
            = some (Val.ofOpt r.data) ∧
          execActions tools (sortByPriority tool_actions) ctx =
            ((execActions tools (l1 ++ [a]) ctx).1 ++
                (execActions tools l2 (execActions tools (l1 ++ [a]) ctx).2).1,
              (execActions tools l2 (execActions tools (l1 ++ [a]) ctx).2).2)) := by
  refine ⟨List.perm_insertionSort _ _, List.sorted_insertionSort _ _, fun _ => rfl, ?_⟩
  intro l1 a l2 ctx tool r hsplit htool hrun
  constructor
  · rw [execActions_append tools l1 [a] ctx,
      execActions_singleton_ok tools a tool r _ htool hrun]
    exact ctxLookup_insert_self _ _ _
  · rw [hsplit, show l1 ++ a :: l2 = (l1 ++ [a]) ++ l2 by simp,
      execActions_append tools (l1 ++ [a]) l2 ctx]

/-- C7 (witness): two actions with priorities 2 and 1; the priority-1 action
is executed first and its data is visible in the context before the
priority-2 action runs. -/
theorem C7_priority_order_and_context_threading_witness :
    ctxLookup (execActions c7Table ([] ++ [c7ActionHigh]) []).2
        ("tool_result_" ++ c7ActionHigh.tool_name) = some (Val.ofOpt c7ResultHigh.data) ∧
      execActions c7Table (sortByPriority [c7ActionLow, c7ActionHigh]) [] =
        ((execActions c7Table ([] ++ [c7ActionHigh]) []).1 ++
            (execActions c7Table [c7ActionLow]
              (execActions c7Table ([] ++ [c7ActionHigh]) []).2).1,
          (execActions c7Table [c7ActionLow]
            (execActions c7Table ([] ++ [c7ActionHigh]) []).2).2) :=
  (C7_priority_order_and_context_threading c7Table [c7ActionLow, c7ActionHigh]).2.2.2
    [] c7ActionHigh [c7ActionLow] [] c7ToolHigh c7ResultHigh rfl rfl rfl

/-- C8 (counterexample): the claim says a raising execution always yields an
`error` result with a non-empty error string. The executor copies `str(e)`
verbatim, and an exception whose text is empty (`str(ValueError())` is `""`)
yields an `error` result whose error string is empty. -/
theorem C8_counterexample_empty_exception_text :
    (executeTools c8Table [c8Action] []).1.map (fun r => (r.status, r.error))
        = [(ToolResultStatus.error, some "")] ∧
      ¬ (∀ r ∈ (executeTools c8Table [c8Action] []).1, r.error.getD "" ≠ "") := by
  constructor
  · rfl
  · intro h
    exact h { tool_name := "failing_tool", status := ToolResultStatus.error,
              data := none, error := some "" } (List.Mem.head _) rfl

/-- C8 (amended): an action whose validation or execution raises yields a
`ToolResult` with status `error` whose error string equals the exception's
text — hence non-empty exactly when that text is — the exception never
propagates, and the executor then continues with the remaining actions from
an unchanged context; an action naming an unknown tool is skipped without
failing the iteration. -/
theorem C8_amended_errors_captured_loop_continues (tools : ToolTable) (a : ToolAction)
    (rest : List ToolAction) (ctx : Ctx) (tool : ToolImpl) (e : String) :
    (tools a.tool_name = some tool → toolRun tool a = Except.error e →
      execActions tools (a :: rest) ctx =
        ({ tool_name := a.tool_name, status := ToolResultStatus.error,
           data := none, error := some e } :: (execActions tools rest ctx).1,
          (execActions tools rest ctx).2)) ∧
      (tools a.tool_name = none →
        execActions tools (a :: rest) ctx = execActions tools rest ctx) := by
  constructor
  · intro htool hrun
    simp [execActions, htool, hrun]
  · intro htool
    simp [execActions, htool]

/-- C8 (witness): a raising tool with text `"boom"` is captured into an
error result and the next action still runs; an unknown tool is skipped. -/
theorem C8_amended_errors_captured_loop_continues_witness :
    (execActions (fun n => if n = "t" then some ⟨fun p => .ok p, fun _ => .error "boom"⟩ else none)
        ({ tool_name := "t", parameters := .vDict [], priority := 1 } :: []) []
      = ({ tool_name := "t", status := ToolResultStatus.error,
           data := none, error := some "boom" } ::
          (execActions (fun n => if n = "t" then some ⟨fun p => .ok p, fun _ => .error "boom"⟩ else none)
            [] []).1,
          (execActions (fun n => if n = "t" then some ⟨fun p => .ok p, fun _ => .error "boom"⟩ else none)
            [] []).2)) ∧
      (execActions (fun _ => (none : Option ToolImpl))
          ({ tool_name := "ghost", parameters := .vDict [], priority := 1 } :: []) []
        = execActions (fun _ => (none : Option ToolImpl)) [] []) :=
  ⟨(C8_amended_errors_captured_loop_continues _ _ [] [] ⟨fun p => .ok p, fun _ => .error "boom"⟩
      "boom").1 rfl rfl,
    (C8_amended_errors_captured_loop_continues (fun _ => none)
      { tool_name := "ghost", parameters := .vDict [], priority := 1 } [] []
      ⟨fun p => .ok p, fun _ => .error ""⟩ "").2 rfl⟩

/-- C10: `build_context` called without a session id — which is exactly how
`process_request` always calls it (its `context` field equals that
session-less build) — never yields the `conversation_history`,
`recent_tool_usage` or `user_preferences` keys beyond whatever the caller
put into `additional_context`, no matter what state earlier `update_context`
calls stored under the `"default"` session: the lookup of each of the three
keys coincides with the lookup in `additional_context` alone. -/
theorem C10_default_session_state_never_read_back (cm : ContextManager) (clock : Clock)
    (dateutil : String → Option String) (user_request : String)
    (user_id : Option String) (additional_context : Ctx) :
    ctxLookup (buildContext cm clock dateutil user_request user_id none additional_context)
        "conversation_history" = ctxLookup additional_context "conversation_history" ∧
      ctxLookup (buildContext cm clock dateutil user_request user_id none additional_context)
        "recent_tool_usage" = ctxLookup additional_context "recent_tool_usage" ∧
      ctxLookup (buildContext cm clock dateutil user_request user_id none additional_context)
        "user_preferences" = ctxLookup additional_context "user_preferences" ∧
      (∀ (O : Oracles) (tools : ToolTable),
        (processRequest O tools clock dateutil cm user_request user_id
            additional_context).1.context
          = buildContext cm clock dateutil user_request user_id none additional_context) := by
  have hrest : ∀ k : String, ¬ ("date" = k) → ¬ ("original_date_text" = k) →
      ¬ ("extracted_user_id" = k) → ¬ ("data_types" = k) → ¬ ("user_id" = k) →
      ¬ ("user_request" = k) → ¬ ("timestamp" = k) → ¬ ("session_id" = k) →
      ctxLookup (buildContext cm clock dateutil user_request user_id none additional_context) k
        = ctxLookup additional_context k := by
    intro k h1 h2 h3 h4 h5 h6 h7 h8
    unfold buildContext
    rw [ctxLookup_append]
    have huser : ctxLookup (match user_id with
        | some u => if u = "" then [] else [("user_id", Val.vStr u)]
        | none => []) k = none := by
      cases user_id with
      | none => rfl
      | some u =>
        by_cases hu : u = ""
        · simp only [hu, if_pos rfl]
          rfl
        · simp [hu, ctxLookup, List.find?, h5]
    have hbase : ctxLookup
        [("user_request", Val.vStr user_request), ("timestamp", Val.vStr clock.nowIso),
         ("session_id", Val.vStr ((none : Option String).getD "default"))] k = none := by
      simp [ctxLookup, List.find?, h6, h7, h8]
    rw [ctxLookup_append, ctxLookup_append, ctxLookup_append,
      extractEntities_lookup_eq_none clock dateutil user_request k h1 h2 h3 h4, huser, hbase]
    cases ctxLookup additional_context k <;> rfl
  refine ⟨hrest _ (by decide) (by decide) (by decide) (by decide) (by decide) (by decide)
      (by decide) (by decide),
    hrest _ (by decide) (by decide) (by decide) (by decide) (by decide) (by decide)
      (by decide) (by decide),
    hrest _ (by decide) (by decide) (by decide) (by decide) (by decide) (by decide)
      (by decide) (by decide), ?_⟩
  intro O tools
  simp only [processRequest]
  split
  · rfl
  · split
    · rfl
    · rfl

/-- C5: the orchestration loop performs at most 3 iterations for every
behaviour of the planner, the backend and the tools; and in the worst case —
planner always returning actions, sufficiency always answering `"NO"`, and a
non-conversational request — the loop runs exactly 3 iterations, terminates,
and `process_request` still reaches the final synthesis step (status
`"success"`) whenever at least one tool result was produced. -/
theorem C5_loop_bounded_reaches_synthesis (O : Oracles) (tools : ToolTable)
    (clock : Clock) (dateutil : String → Option String) (cm : ContextManager)
    (user_request : String) (user_id : Option String) (additional_context : Ctx)
    (hconv : isConversationalRequest user_request = false)
    (hplan : ∀ ctx, O.planActions user_request ctx ≠ [])
    (hno : ∀ req rows, O.suffLLM req rows = some "NO") :
    (∀ (O2 : Oracles) (tools2 : ToolTable) (req2 : String) (ctx2 : Ctx)
        (allR : List ToolResult) (allA : List ToolAction) (cm2 : ContextManager),
      (agentLoop O2 tools2 req2 ctx2 maxIterations allR allA cm2).iterations ≤ 3) ∧
      (agentLoop O tools user_request
          (buildContext cm clock dateutil user_request user_id none additional_context)
          maxIterations [] [] cm).iterations = 3 ∧
      ((agentLoop O tools user_request
          (buildContext cm clock dateutil user_request user_id none additional_context)
          maxIterations [] [] cm).results ≠ [] →
        (processRequest O tools clock dateutil cm user_request user_id
          additional_context).1.status = "success") := by
  refine ⟨fun O2 tools2 req2 ctx2 allR allA cm2 =>
      agentLoop_iterations_le O2 tools2 req2 ctx2 maxIterations allR allA cm2,
    agentLoop_iterations_eq_fuel O tools user_request _ hplan hno maxIterations [] [] cm, ?_⟩
  intro hne
  have hempty : (agentLoop O tools user_request
      (buildContext cm clock dateutil user_request user_id none additional_context)
      maxIterations [] [] cm).results.isEmpty = false := by
    rcases h : (agentLoop O tools user_request
        (buildContext cm clock dateutil user_request user_id none additional_context)
        maxIterations [] [] cm).results with _ | _
    · exact absurd h hne
    · rfl
  simp only [processRequest, hconv, Bool.false_eq_true, if_false, hempty]

/-- C5 (witness): a concrete run — non-conversational request, constant
one-action planner, backend always `"NO"` — performs exactly 3 iterations
and, having produced results, ends with status `"success"`. -/
theorem C5_loop_bounded_reaches_synthesis_witness :
    (∀ (O2 : Oracles) (tools2 : ToolTable) (req2 : String) (ctx2 : Ctx)
        (allR : List ToolResult) (allA : List ToolAction) (cm2 : ContextManager),
      (agentLoop O2 tools2 req2 ctx2 maxIterations allR allA cm2).iterations ≤ 3) ∧
      (agentLoop c5Oracles c5Table c5Request c5Context maxIterations []
          [] (ContextManager.init 50)).iterations = 3 ∧
      ((agentLoop c5Oracles c5Table c5Request c5Context maxIterations []
          [] (ContextManager.init 50)).results ≠ [] →
        (processRequest c5Oracles c5Table c5Clock (fun _ => none) (ContextManager.init 50)
          c5Request none []).1.status = "success") :=
  C5_loop_bounded_reaches_synthesis c5Oracles c5Table c5Clock (fun _ => none)
    (ContextManager.init 50) c5Request none [] (by decide)
    (by intro ctx h; simp [c5Oracles] at h) (fun _ _ => rfl)

/-- C9: whenever any phrase of the fixed conversational list occurs as a
substring of the lower-cased, stripped request — including inside a longer
word — `process_request` takes the conversational path: status
`"conversational"`, empty `tool_results` and empty `tool_actions`, no matter
how long the request is or which data keywords it contains. -/
theorem C9_conversational_substring_shortcircuits (O : Oracles) (tools : ToolTable)
    (clock : Clock) (dateutil : String → Option String) (cm : ContextManager)
    (user_request : String) (user_id : Option String) (additional_context : Ctx)
    (p : String) (hp : p ∈ conversationalPatterns)
    (hsub : substrOf p (pyStrip (lowerStr user_request)) = true) :
    isConversationalRequest user_request = true ∧
      (processRequest O tools clock dateutil cm user_request user_id
        additional_context).1.status = "conversational" ∧
      (processRequest O tools clock dateutil cm user_request user_id
        additional_context).1.tool_results = [] ∧
      (processRequest O tools clock dateutil cm user_request user_id
        additional_context).1.tool_actions = [] := by
  have hconv : isConversationalRequest user_request = true := by
    unfold isConversationalRequest
    have hany : conversationalPatterns.any
        (fun pat => substrOf pat (pyStrip (lowerStr user_request))) = true :=
      List.any_eq_true.mpr ⟨p, hp, hsub⟩
    simp [hany]
  exact ⟨hconv, by simp [processRequest, hconv], by simp [processRequest, hconv],
    by simp [processRequest, hconv]⟩

/-- C9 (witness): the request `"show me shipping data for user u42 from the
database"` is long and data-oriented, yet `"hi"` occurs inside `"shipping"`,
so the run is conversational with no tool activity. -/
theorem C9_conversational_substring_shortcircuits_witness :
    isConversationalRequest c9Request = true ∧
      (processRequest c9Oracles (fun _ => none) c5Clock (fun _ => none)
        (ContextManager.init 50) c9Request none []).1.status = "conversational" ∧
      (processRequest c9Oracles (fun _ => none) c5Clock (fun _ => none)
        (ContextManager.init 50) c9Request none []).1.tool_results = [] ∧
      (processRequest c9Oracles (fun _ => none) c5Clock (fun _ => none)
        (ContextManager.init 50) c9Request none []).1.tool_actions = [] :=
  C9_conversational_substring_shortcircuits c9Oracles (fun _ => none) c5Clock
    (fun _ => none) (ContextManager.init 50) c9Request none [] "hi"
    (by decide) (by decide)

/-- C6: `get_tools_for_intent` scores only the enabled tools, keeps exactly
the pairs whose confidence is at least `min_confidence` (the kept pairs are a
permutation of the filtered scored list, and membership is characterized
explicitly), returns them sorted by descending confidence, and breaks ties
between equal confidences by discovery order (the sort is stable: for every
confidence value, the entries carrying it appear in their original relative
order). -/
theorem C6_get_tools_for_intent_sorted_filtered_stable
    (tools : List RegisteredTool) (intent : String) (context : Ctx)
    (min_confidence : ℚ) :
    (getToolsForIntent tools intent context min_confidence).Perm
        (scoreCandidates tools intent context min_confidence) ∧
      (∀ p : RegisteredTool × ℚ,
        p ∈ getToolsForIntent tools intent context min_confidence ↔
          (p.1 ∈ tools ∧ p.1.enabled = true ∧ p.2 = p.1.shouldUse intent context ∧
            min_confidence ≤ p.2)) ∧
      List.Sorted confGE (getToolsForIntent tools intent context min_confidence) ∧
      (∀ q : ℚ,
        (getToolsForIntent tools intent context min_confidence).filter (fun p => p.2 = q) =
          (scoreCandidates tools intent context min_confidence).filter (fun p => p.2 = q)) := by
  refine ⟨List.perm_insertionSort _ _, ?_, List.sorted_insertionSort _ _,
    fun q => insertionSort_filter_confEq q _⟩
  intro p
  simp only [getToolsForIntent]
  rw [(List.perm_insertionSort confGE _).mem_iff]
  constructor
  · intro hp
    rcases List.mem_filter.mp hp with ⟨hmap, hge⟩
    rcases List.mem_map.mp hmap with ⟨t, ht, rfl⟩
    rcases List.mem_filter.mp ht with ⟨htools, hen⟩
    exact ⟨htools, hen, rfl, by exact_mod_cast of_decide_eq_true hge⟩
  · rintro ⟨htools, hen, hscore, hge⟩
    refine List.mem_filter.mpr ⟨List.mem_map.mpr ⟨p.1, List.mem_filter.mpr ⟨htools, hen⟩, ?_⟩,
      by simpa using hge⟩
    rw [← hscore]

end WeeklySummaries

